import Mathlib

/-!
Verification development for the Passport firmware secure-element driver
(`src/ports/stm32/boards/Passport/adc.h`, which carries the single-wire
secure-element transport and authentication code).

The driver is embedded shallowly:

* Pure algorithms (`se_crc16_chain`, the pulse codec of `_send_bits` /
  `deserialize`) become Lean functions over `List Nat` byte sequences, with
  machine-integer wraparound written as explicit `% 2^w`.
* The UART hardware is not modelled; instead, each response the chip delivers
  to one `se_read_response` call is an environment input (`env : Nat → List
  Nat`, indexed by attempt number), and the single-byte results that
  `se_read1` hands to the protocol layer are `Option Nat` inputs
  (`none` = transport failure, `some b` = delivered byte `b`).
* The SHA-256 collaborator (`sha256_init` / `sha256_update` / `sha256_final`)
  is kept abstract: a context is the concatenation of the updated byte
  ranges and `sha256_final` applies an arbitrary hash `H : List Nat → List
  Nat` to it.  The RNG collaborator's outputs (`rng_buffer`) are inputs.
* Commands sent with `se_write` are recorded in a trace of `Command`
  values so that theorems can speak about the exact frames issued.
-/

/-- Opcode type of `se.h` (`seopcode_t`). -/
inductive seopcode_t where
  | OP_Read
  | OP_Write
  | OP_Nonce
  | OP_GenDig
  | OP_MAC
  | OP_CheckMac
  | OP_Info
deriving DecidableEq, Repr

/-- Modelled from the spec: the numeric opcode values live in `se.h`, which is
not among the sources; they follow the secure-element command set that the
code quotes in its comments (for example `se_gendig_slot` reproduces the chip
digest over `b'\x15\x02'`, so GenDig is 0x15).  All claims use these values
only symbolically, through this function. -/
def opcodeVal : seopcode_t → Nat
  | .OP_Read => 0x02
  | .OP_Write => 0x12
  | .OP_Nonce => 0x16
  | .OP_GenDig => 0x15
  | .OP_MAC => 0x08
  | .OP_CheckMac => 0x28
  | .OP_Info => 0x30

/-- Bit pattern sent for a 0 bit (`#define BIT0 0x7d`). -/
def BIT0 : Nat := 0x7d

/-- Bit pattern sent for a 1 bit (`#define BIT1 0x7f`). -/
def BIT1 : Nat := 0x7f

/-- `_send_bits`: serialize one logical byte into 8 pulses, LSB first
(`mask` starts at 1 and shifts left; a set bit sends `BIT1`, a clear bit
`BIT0`). -/
def send_bits (tx : Nat) : List Nat :=
  (List.range 8).map (fun i => if tx &&& (1 <<< i) ≠ 0 then BIT1 else BIT0)

/-- The pulse test of `deserialize`: `(from[i] ^ 0x7F) < 2` marks bit 1. -/
def decode_bit (p : Nat) : Bool := p ^^^ 0x7F < 2

/-- One 8-pulse group of `deserialize`: build `rv` by or-ing `mask = 1 <<< i`
for every pulse decoding to bit 1. -/
def deser_byte (ps : List Nat) : Nat :=
  (List.range 8).foldl (fun rv i => if decode_bit (ps.getD i 0) then rv ||| (1 <<< i) else rv) 0

/-- `deserialize(from, from_len, into, max_into)`: while pulses remain, decode
a group of 8 into one output byte; after writing a byte the loop breaks once
the decremented `max_into` reaches zero, i.e. it continues only for
`max_into ≥ 2` (recursion is structural on `max_into`, matching
`max_into--; if (max_into <= 0) break`).  The pulse list stands for
`from`/`from_len`. -/
def deserialize : List Nat → Nat → List Nat
  | [], _ => []
  | p :: rest, max_into =>
    deser_byte ((p :: rest).take 8) ::
      (match max_into with
       | 0 => []
       | 1 => []
       | m + 2 => deserialize (rest.drop 7) (m + 1))

/-- One step of the bit-serial CRC of `se_crc16_chain`: take the data bit,
xor with the register's top bit, shift the 16-bit register left, and xor in
the polynomial 0x8005 if the combined bit was set. -/
def crc16_update_bit (reg data_bit : Nat) : Nat :=
  let crc_bit := reg >>> 15
  let reg2 := (reg <<< 1) % 65536
  if data_bit ^^^ crc_bit ≠ 0 then reg2 ^^^ 0x8005 else reg2

/-- The inner loop of `se_crc16_chain`: one data byte, LSB first
(`shift_register` runs through 1, 2, ..., 128). -/
def crc16_update_byte (reg b : Nat) : Nat :=
  (List.range 8).foldl
    (fun r i => crc16_update_bit r (if b &&& (1 <<< i) ≠ 0 then 1 else 0)) reg

/-- `se_crc16_chain(length, data, crc)`: assemble the 16-bit register from the
little-endian byte pair `crc`, fold the data bytes through the bit-serial
update, and split the register back into bytes.  The `(length, data)` pair is
modelled as the byte list `data`. -/
def se_crc16_chain (data : List Nat) (crc : Nat × Nat) : Nat × Nat :=
  let reg0 := (crc.1 % 256) ||| (((crc.2 % 256) <<< 8) % 65536)
  let regF := data.foldl crc16_update_byte reg0
  (regF % 256, (regF >>> 8) % 256)

theorem crc16_update_bit_lt (reg b : Nat) : crc16_update_bit reg b < 65536 := by
  have h16 : (65536 : Nat) = 2 ^ 16 := by norm_num
  simp only [crc16_update_bit]
  have h1 : (reg <<< 1) % 65536 < 65536 := Nat.mod_lt _ (by omega)
  split
  · rw [h16]
    exact Nat.xor_lt_two_pow (h16 ▸ h1) (by norm_num)
  · exact h1

theorem crc16_update_byte_lt (reg b : Nat) : crc16_update_byte reg b < 65536 := by
  unfold crc16_update_byte
  simp only [List.range_succ, List.foldl_append, List.foldl_cons, List.foldl_nil,
    List.range_zero]
  exact crc16_update_bit_lt _ _

theorem crc16_foldl_lt (data : List Nat) (reg : Nat) (h : reg < 65536) :
    data.foldl crc16_update_byte reg < 65536 := by
  induction data generalizing reg with
  | nil => simpa using h
  | cons b rest ih => exact ih _ (crc16_update_byte_lt reg b)

theorem lo_or_hi_shift (reg : Nat) : (reg % 256) ||| ((reg >>> 8) <<< 8) = reg := by
  apply Nat.eq_of_testBit_eq
  intro i
  rw [Nat.testBit_lor, Nat.testBit_shiftLeft, Nat.testBit_shiftRight,
    show (256 : Nat) = 2 ^ 8 from by norm_num, Nat.testBit_mod_two_pow]
  rcases Nat.lt_or_ge i 8 with hi | hi
  · simp [hi, Nat.not_le.mpr hi]
  · simp [hi, Nat.not_lt.mpr hi, Nat.add_sub_cancel' hi]

/-- C5: chaining associativity of the CRC.  Running `se_crc16_chain` once over
a whole byte sequence from the zero-seeded register equals two successive
calls over the two fragments of any split, with the output register of the
first call carried into the second. -/
theorem se_crc16_chain_split (xs ys : List Nat) :
    se_crc16_chain (xs ++ ys) (0, 0) = se_crc16_chain ys (se_crc16_chain xs (0, 0)) := by
  simp only [se_crc16_chain, List.foldl_append]
  have h0 : ((0 : Nat) % 256) ||| ((((0 : Nat) % 256) <<< 8) % 65536) = 0 := by decide
  rw [h0]
  have hX : xs.foldl crc16_update_byte 0 < 65536 := crc16_foldl_lt xs 0 (by omega)
  set regX := xs.foldl crc16_update_byte 0 with hregX
  have hsr : regX >>> 8 = regX / 256 := by
    have h := Nat.shiftRight_eq_div_pow regX 8
    norm_num at h
    exact h
  have hm1 : regX % 256 % 256 = regX % 256 := by omega
  have hm2 : regX >>> 8 % 256 % 256 = regX >>> 8 % 256 := by omega
  have hm3 : regX >>> 8 % 256 = regX >>> 8 := by rw [hsr]; omega
  have hm4 : (regX >>> 8) <<< 8 % 65536 = (regX >>> 8) <<< 8 := by
    have hlt : (regX >>> 8) <<< 8 < 65536 := by
      rw [Nat.shiftLeft_eq, hsr]
      norm_num
      omega
    exact Nat.mod_eq_of_lt hlt
  rw [hm1, hm2, hm3, hm4, lo_or_hi_shift]

set_option maxRecDepth 4096 in
/-- C6: bit-codec round trip.  Deserializing the 8 pulses that `_send_bits`
produces for a byte recovers the byte, and the pulse test of `deserialize`
accepts exactly the raw values 0x7E and 0x7F as bit 1 (tolerating a one-bit
corruption of the nominal 0x7F pattern), mapping every other raw value to
bit 0. -/
theorem bit_codec_roundtrip :
    (∀ b, b < 256 → deserialize (send_bits b) 1 = [b]) ∧
    (∀ p, decode_bit p = true ↔ (p = 0x7E ∨ p = 0x7F)) := by
  constructor
  · decide
  · intro p
    simp only [decode_bit, decide_eq_true_eq]
    constructor
    · intro h
      have h2 : p ^^^ 0x7F = 0 ∨ p ^^^ 0x7F = 1 := by omega
      rcases h2 with h2 | h2
      · exact Or.inr (Nat.xor_eq_zero.mp h2)
      · have h3 : p = 1 ^^^ 0x7F := by
          have h4 := Nat.xor_cancel_right 0x7F p
          rw [← h4, h2]
        exact Or.inl (by rw [h3]; decide)
    · rintro (rfl | rfl) <;> decide

/-- Witness for C6 at the concrete byte 0xA5 and the tolerated pulse 0x7E. -/
theorem bit_codec_roundtrip_witness :
    deserialize (send_bits 0xA5) 1 = [0xA5] ∧ decode_bit 0x7E = true :=
  ⟨bit_codec_roundtrip.1 0xA5 (by decide), (bit_codec_roundtrip.2 0x7E).mpr (Or.inl rfl)⟩

/-- The process-wide diagnostic counters that `se_read` updates. -/
structure Counters where
  not_ready_n : Nat
  short_error : Nat
  len_error : Nat
  len_error_two : Nat
  wdgtimeout : Nat
  crc_errors : Nat
  ln_retry : Nat
  retry_out : Nat
deriving DecidableEq, Repr

/-- One command frame issued through `se_write` (opcode, `p1`, `p2`, body). -/
structure Command where
  opcode : seopcode_t
  p1 : Nat
  p2 : Nat
  data : List Nat
deriving DecidableEq, Repr

/-- `check_crc(data, length)`: the first byte must equal the frame length, and
the chained CRC over the first `length-2` bytes (zero-seeded) must match the
two trailing bytes. -/
def check_crc (data : List Nat) (length : Nat) : Bool :=
  if data.getD 0 0 ≠ length then false
  else
    let obs := se_crc16_chain (data.take (length - 2)) (0, 0)
    (obs.1 == data.getD (length - 2) 0) && (obs.2 == data.getD (length - 1) 0)

/-- Outcome of one iteration of the retry loop in `se_read`, before control
flow: deliver a payload, fail terminally on a 4-byte chip error frame
(`wd` records whether the error code was the watchdog value 0xEE), or retry
for one of the four diagnostic reasons. -/
inductive Attempt where
  | success (payload : List Nat)
  | terminal (wd : Bool)
  | retryNR
  | retryShort
  | retryLen
  | retryCrc
deriving DecidableEq, Repr

/-- The body of one `se_read` loop iteration over the `actual` bytes a
`se_read_response(tmp, len+3)` call recovered (`resp` is the full
deserialized response; `tmp` holds its first `len+3` bytes).  Mirrors the
branch structure of `se_read`: fewer than 4 bytes retries (two diagnostic
buckets); the Info opcode bypasses length and CRC validation; a declared
length differing from `len+3` is terminal when it equals 4 and retried
otherwise; a CRC mismatch retries; otherwise the `actual-3` payload bytes
after the length byte are delivered. -/
def classify (op : seopcode_t) (len : Nat) (resp : List Nat) : Attempt :=
  let tmp := resp.take (len + 3)
  let actual := resp.length
  if actual < 4 then
    if actual = 0 then .retryNR else .retryShort
  else if op = .OP_Info then
    .success ((tmp.drop 1).take (actual - 3))
  else if tmp.getD 0 0 ≠ len + 3 then
    if tmp.getD 0 0 = 4 then .terminal (tmp.getD 1 0 == 0xEE)
    else .retryLen
  else if check_crc tmp actual then
    .success ((tmp.drop 1).take (actual - 3))
  else .retryCrc

/-- Counter increments for a retried attempt (each retry path also counts
`ln_retry` at the `try_again` label). -/
def bump_retry (a : Attempt) (c : Counters) : Counters :=
  match a with
  | .retryNR => { c with not_ready_n := c.not_ready_n + 1, ln_retry := c.ln_retry + 1 }
  | .retryShort => { c with short_error := c.short_error + 1, ln_retry := c.ln_retry + 1 }
  | .retryLen => { c with len_error := c.len_error + 1, ln_retry := c.ln_retry + 1 }
  | .retryCrc => { c with crc_errors := c.crc_errors + 1, ln_retry := c.ln_retry + 1 }
  | _ => c

/-- Counter increments for the terminal 4-byte chip-error branch
(`len_error`, then `len_error_two`, plus `wdgtimeout` when the code is
0xEE). -/
def bump_terminal (wd : Bool) (c : Counters) : Counters :=
  let c1 := { c with len_error := c.len_error + 1, len_error_two := c.len_error_two + 1 }
  if wd then { c1 with wdgtimeout := c1.wdgtimeout + 1 } else c1

/-- The retry loop of `se_read`.  `env i` is the response the chip delivers
on the i-th `se_read_response` call of this invocation; the loop always
examines the next response (`env 0`) and shifts the environment when it
retries.  `fuel` is the number of loop iterations left (`se_read` starts at
101: `for (retry=100; retry >= 0; retry--)`); running out returns the
transport failure (`none`) and counts `retry_out`. -/
def se_read_go (op : seopcode_t) (len : Nat) :
    (Nat → List Nat) → Counters → Nat → Option (List Nat) × Counters
  | _, c, 0 => (none, { c with retry_out := c.retry_out + 1 })
  | env, c, fuel + 1 =>
    match classify op len (env 0) with
    | .success p => (some p, c)
    | .terminal wd => (none, bump_terminal wd c)
    | a => se_read_go op len (fun i => env (i + 1)) (bump_retry a c) fuel

/-- `se_read(data, len)`: run the retry loop with its budget of 101
iterations.  A `some` result is the payload copied into `data`; `none` is
the -1 transport failure. -/
def se_read (op : seopcode_t) (len : Nat) (env : Nat → List Nat) (c : Counters) :
    Option (List Nat) × Counters :=
  se_read_go op len env c 101

/-- `se_read1()`: read a single byte; -1 on failure, else the byte. -/
def se_read1 (op : seopcode_t) (env : Nat → List Nat) (c : Counters) : Int × Counters :=
  match se_read op 1 env c with
  | (none, c1) => (-1, c1)
  | (some p, c1) => ((p.getD 0 0 : Nat), c1)

/-- Retried attempts, as a predicate on the classification. -/
def Attempt.is_retry : Attempt → Bool
  | .retryNR => true
  | .retryShort => true
  | .retryLen => true
  | .retryCrc => true
  | _ => false

theorem se_read_go_succ_success {op : seopcode_t} {len : Nat} {env : Nat → List Nat}
    {c : Counters} {fuel : Nat} {p : List Nat}
    (h : classify op len (env 0) = .success p) :
    se_read_go op len env c (fuel + 1) = (some p, c) := by
  simp [se_read_go, h]

theorem se_read_go_succ_terminal {op : seopcode_t} {len : Nat} {env : Nat → List Nat}
    {c : Counters} {fuel : Nat} {wd : Bool}
    (h : classify op len (env 0) = .terminal wd) :
    se_read_go op len env c (fuel + 1) = (none, bump_terminal wd c) := by
  simp [se_read_go, h]

theorem se_read_go_succ_retry {op : seopcode_t} {len : Nat} {env : Nat → List Nat}
    {c : Counters} {fuel : Nat}
    (h : (classify op len (env 0)).is_retry = true) :
    se_read_go op len env c (fuel + 1) =
      se_read_go op len (fun i => env (i + 1)) (bump_retry (classify op len (env 0)) c) fuel := by
  cases hc : classify op len (env 0) with
  | success p => rw [hc] at h; simp [Attempt.is_retry] at h
  | terminal wd => rw [hc] at h; simp [Attempt.is_retry] at h
  | retryNR => simp [se_read_go, hc]
  | retryShort => simp [se_read_go, hc]
  | retryLen => simp [se_read_go, hc]
  | retryCrc => simp [se_read_go, hc]

theorem bump_retry_ln_retry (a : Attempt) (c : Counters) (h : a.is_retry = true) :
    (bump_retry a c).ln_retry = c.ln_retry + 1 := by
  cases a <;> simp [Attempt.is_retry] at h <;> simp [bump_retry]

theorem bump_retry_retry_out (a : Attempt) (c : Counters) :
    (bump_retry a c).retry_out = c.retry_out := by
  cases a <;> simp [bump_retry]

theorem se_read_go_all_retry (op : seopcode_t) (len : Nat) :
    ∀ (fuel : Nat) (env : Nat → List Nat) (c : Counters),
      (∀ i, i < fuel → (classify op len (env i)).is_retry = true) →
      ∃ c1, se_read_go op len env c fuel = (none, c1) ∧
        c1.ln_retry = c.ln_retry + fuel ∧ c1.retry_out = c.retry_out + 1 := by
  intro fuel
  induction fuel with
  | zero =>
    intro env c _
    exact ⟨_, rfl, by simp, rfl⟩
  | succ n ih =>
    intro env c h
    have h0 := h 0 (by omega)
    rw [se_read_go_succ_retry h0]
    obtain ⟨c1, heq, hln, hro⟩ :=
      ih (fun i => env (i + 1)) (bump_retry (classify op len (env 0)) c)
        (fun i hi => h (i + 1) (by omega))
    refine ⟨c1, heq, ?_, ?_⟩
    · rw [hln, bump_retry_ln_retry _ _ h0]
      omega
    · rw [hro, bump_retry_retry_out]

theorem se_read_go_success_at (op : seopcode_t) (len : Nat) :
    ∀ (k fuel : Nat) (env : Nat → List Nat) (c : Counters) (p : List Nat),
      k < fuel →
      (∀ i, i < k → (classify op len (env i)).is_retry = true) →
      classify op len (env k) = .success p →
      ∃ c1, se_read_go op len env c fuel = (some p, c1) ∧
        c1.ln_retry = c.ln_retry + k ∧ c1.retry_out = c.retry_out := by
  intro k
  induction k with
  | zero =>
    intro fuel env c p hk _ hcl
    obtain ⟨f, rfl⟩ : ∃ f, fuel = f + 1 := ⟨fuel - 1, by omega⟩
    rw [se_read_go_succ_success hcl]
    exact ⟨c, rfl, by omega, rfl⟩
  | succ n ih =>
    intro fuel env c p hk hret hcl
    obtain ⟨f, rfl⟩ : ∃ f, fuel = f + 1 := ⟨fuel - 1, by omega⟩
    have h0 := hret 0 (by omega)
    rw [se_read_go_succ_retry h0]
    obtain ⟨c1, heq, hln, hro⟩ :=
      ih f (fun i => env (i + 1)) (bump_retry (classify op len (env 0)) c) p
        (by omega) (fun i hi => hret (i + 1) (by omega)) hcl
    refine ⟨c1, heq, ?_, ?_⟩
    · rw [hln, bump_retry_ln_retry _ _ h0]
      omega
    · rw [hro, bump_retry_retry_out]

/-- C8: retry budget.  If every attempt yields a frame the loop retries on
(short read, length mismatch other than the 4-byte error shape, or CRC
mismatch), `se_read` returns the transport failure exactly after its budget
of 101 loop iterations (`retry = 100` down to `0`), counting 101 retries and
one `retry_out`; and an attempt that classifies as a success at index
`k ≤ 100` (after `k` retried attempts) returns that payload with `k` retries
counted and no `retry_out`, consuming no further attempts. -/
theorem se_read_retry_budget (op : seopcode_t) (len : Nat) (env : Nat → List Nat) (c : Counters) :
    ((∀ i, i ≤ 100 → (classify op len (env i)).is_retry = true) →
      ∃ c1, se_read op len env c = (none, c1) ∧
        c1.ln_retry = c.ln_retry + 101 ∧ c1.retry_out = c.retry_out + 1) ∧
    (∀ k p, k ≤ 100 →
      (∀ i, i < k → (classify op len (env i)).is_retry = true) →
      classify op len (env k) = .success p →
      ∃ c1, se_read op len env c = (some p, c1) ∧
        c1.ln_retry = c.ln_retry + k ∧ c1.retry_out = c.retry_out) := by
  constructor
  · intro h
    exact se_read_go_all_retry op len 101 env c (fun i hi => h i (by omega))
  · intro k p hk hret hcl
    exact se_read_go_success_at op len k 101 env c p (by omega) hret hcl

/-- Witness for C8: a channel that always answers with an empty frame
exhausts all 101 attempts; a channel whose first frame is the valid 4-byte
frame `[4, 7, 64, 194]` (CRC of `[4, 7]` is `(64, 194)`) succeeds at once. -/
theorem se_read_retry_budget_witness :
    (∃ c1, se_read .OP_Read 1 (fun _ => []) ⟨0, 0, 0, 0, 0, 0, 0, 0⟩ = (none, c1) ∧
      c1.ln_retry = 0 + 101 ∧ c1.retry_out = 0 + 1) ∧
    (∃ c1, se_read .OP_Read 1 (fun _ => [4, 7, 64, 194]) ⟨0, 0, 0, 0, 0, 0, 0, 0⟩ =
        (some [7], c1) ∧ c1.ln_retry = 0 + 0 ∧ c1.retry_out = 0) :=
  ⟨(se_read_retry_budget .OP_Read 1 (fun _ => []) ⟨0, 0, 0, 0, 0, 0, 0, 0⟩).1
      (fun i _ => by decide),
   (se_read_retry_budget .OP_Read 1 (fun _ => [4, 7, 64, 194]) ⟨0, 0, 0, 0, 0, 0, 0, 0⟩).2
      0 [7] (by omega) (fun i hi => absurd hi (by omega)) (by decide)⟩

/-- C7: for a non-Info opcode, a response of at least 4 bytes whose declared
length byte is not `len+3` and equals exactly 4 makes `se_read` return the
error result immediately — the whole call's outcome is fixed by attempt 0,
no retry is counted, and `bump_terminal` adds the watchdog-timeout count
exactly when the error-code byte is 0xEE — while any other length mismatch
makes attempt 0 a retry, handing control to the remaining 100 iterations
instead of accepting the frame. -/
theorem se_read_len_mismatch (op : seopcode_t) (len : Nat) (env : Nat → List Nat) (c : Counters) :
    (op ≠ .OP_Info → 4 ≤ (env 0).length →
      ((env 0).take (len + 3)).getD 0 0 = 4 → len + 3 ≠ 4 →
      se_read op len env c =
        (none, bump_terminal (((env 0).take (len + 3)).getD 1 0 == 0xEE) c)) ∧
    (op ≠ .OP_Info → 4 ≤ (env 0).length →
      ((env 0).take (len + 3)).getD 0 0 ≠ len + 3 →
      ((env 0).take (len + 3)).getD 0 0 ≠ 4 →
      se_read op len env c =
        se_read_go op len (fun i => env (i + 1)) (bump_retry .retryLen c) 100) ∧
    (∀ (wd : Bool) (c1 : Counters),
      (bump_terminal wd c1).ln_retry = c1.ln_retry ∧
      (bump_terminal wd c1).retry_out = c1.retry_out ∧
      (bump_terminal wd c1).len_error_two = c1.len_error_two + 1 ∧
      (bump_terminal wd c1).wdgtimeout = c1.wdgtimeout + (if wd then 1 else 0)) := by
  refine ⟨?_, ?_, ?_⟩
  · intro hop hlen h4 hne
    have hcl : classify op len (env 0) =
        .terminal (((env 0).take (len + 3)).getD 1 0 == 0xEE) := by
      unfold classify
      rw [if_neg (by omega), if_neg hop, if_pos (by omega), if_pos h4]
    rw [se_read, show (101 : Nat) = 100 + 1 from rfl, se_read_go_succ_terminal hcl]
  · intro hop hlen hne h4
    have hcl : classify op len (env 0) = .retryLen := by
      unfold classify
      rw [if_neg (by omega), if_neg hop, if_pos hne, if_neg h4]
    rw [se_read, show (101 : Nat) = 100 + 1 from rfl, se_read_go_succ_retry (by rw [hcl]; rfl),
      hcl]
  · intro wd c1
    cases wd <;> simp [bump_terminal]

/-- Witness for C7: the frame `[4, 0xEE, 9, 9]` with `len = 2` is terminal
and counts a watchdog timeout; the frame `[9, 0, 0, 0]` with `len = 2` is a
plain length mismatch and is retried. -/
theorem se_read_len_mismatch_witness :
    se_read .OP_Read 2 (fun _ => [4, 0xEE, 9, 9]) ⟨0, 0, 0, 0, 0, 0, 0, 0⟩ =
      (none, bump_terminal true ⟨0, 0, 0, 0, 0, 0, 0, 0⟩) ∧
    se_read .OP_Read 2 (fun _ => [9, 0, 0, 0]) ⟨0, 0, 0, 0, 0, 0, 0, 0⟩ =
      se_read_go .OP_Read 2 (fun _ => [9, 0, 0, 0])
        (bump_retry .retryLen ⟨0, 0, 0, 0, 0, 0, 0, 0⟩) 100 :=
  ⟨(se_read_len_mismatch .OP_Read 2 (fun _ => [4, 0xEE, 9, 9]) ⟨0, 0, 0, 0, 0, 0, 0, 0⟩).1
      (by decide) (by decide) (by decide) (by decide),
   (se_read_len_mismatch .OP_Read 2 (fun _ => [9, 0, 0, 0]) ⟨0, 0, 0, 0, 0, 0, 0, 0⟩).2.1
      (by decide) (by decide) (by decide) (by decide)⟩

/-- `sha256_init`: an empty streaming context.  The context of the SHA-256
collaborator is modelled as the concatenation of the byte ranges passed to
`sha256_update`. -/
def sha256_init : List Nat := []

/-- `sha256_update(ctx, data, n)`: append the `n` bytes read from `data`
(the caller passes them as the list). -/
def sha256_update (ctx data : List Nat) : List Nat := ctx ++ data

/-- `sha256_final(ctx, out)`: apply the abstract hash `H` to the
accumulated message. -/
def sha256_final (H : List Nat → List Nat) (ctx : List Nat) : List Nat := H ctx

/-- `se_pick_nonce(num_in, tempkey)`.  Sends `OP_Nonce` carrying the 20
host-entropy bytes; `nonceRead` is the outcome of the 32-byte `se_read` of
the chip's RNG output (`none` = transport failure, mapped to `-1`).  On
success the host reproduces the chip derivation
`sha256(rndout + num_in + b'\x16\0\0')` as the returned tempkey. -/
def se_pick_nonce (H : List Nat → List Nat) (num_in : List Nat)
    (nonceRead : Option (List Nat)) : List Command × Option (List Nat) :=
  let tr := [⟨seopcode_t.OP_Nonce, 0, 0, num_in.take 20⟩]
  match nonceRead with
  | none => (tr, none)
  | some randout =>
    let ctx := sha256_update (sha256_update (sha256_update sha256_init (randout.take 32))
      (num_in.take 20)) [0x16, 0, 0]
    (tr, some (sha256_final H ctx))

/-- `se_gendig_slot(slot_num, slot_contents, digest)`.  `num_in` is the
20-byte `rng_buffer` output, `nonceRead` the nonce-exchange read outcome and
`gdRead1` the `se_read1` outcome after the GenDig command (`none` = -1
transport failure).  On success the digest is
`SHA256(slot_contents || {OP_GenDig, 2, slot_num, 0, 0xEE, 0x01, 0x23} ||
25 zeros || tempkey)`. -/
def se_gendig_slot (H : List Nat → List Nat) (slot_num : Nat)
    (slot_contents num_in : List Nat) (nonceRead : Option (List Nat))
    (gdRead1 : Option Nat) : List Command × Option (List Nat) :=
  let pn := se_pick_nonce H num_in nonceRead
  match pn.2 with
  | none => (pn.1, none)
  | some tempkey =>
    let t2 := pn.1 ++ [⟨seopcode_t.OP_GenDig, 0x2, slot_num % 65536, []⟩]
    match gdRead1 with
    | none => (t2, none)
    | some rc =>
      if rc ≠ 0 then (t2, none)
      else
        let args := [opcodeVal .OP_GenDig, 2, slot_num % 256, 0, 0xEE, 0x01, 0x23]
        let ctx := sha256_update (sha256_update (sha256_update
          (sha256_update sha256_init (slot_contents.take 32)) args)
          (List.replicate 25 0)) (tempkey.take 32)
        (t2, some (sha256_final H ctx))

/-- The 32 bytes of `copyright_msg` copied into the unused `ch3` area of the
CheckMac request body. -/
def copyright_msg : List Nat := "(C) 2020 Foundation Devices Inc.".toList.map Char.toNat

/-- Environment of one `se_checkmac` call: the two `rng_buffer` outputs
(`od`, 32 bytes, and `numin`, 20 bytes), the nonce-exchange read outcome,
and the `se_read1` outcome after the CheckMac command. -/
structure CheckmacEnv where
  od : List Nat
  numin : List Nat
  nonceRead : Option (List Nat)
  cmRead1 : Option Nat

/-- `se_checkmac(keynum, secret)`.  Returns `-1` when the nonce exchange
fails, otherwise hashes the secret, tempkey, slices of the random
"other data", and serial-number constants into the expected 32-byte
response, sends `OP_CheckMac` with the 77-byte request body, and maps a
`se_read1` outcome other than a 0 byte (including the -1 transport
failure) to `-2`. -/
def se_checkmac (H : List Nat → List Nat) (keynum : Nat) (secret : List Nat)
    (e : CheckmacEnv) : List Command × Int :=
  let pn := se_pick_nonce H e.numin e.nonceRead
  match pn.2 with
  | none => (pn.1, -1)
  | some tempkey =>
    let ctx := sha256_update (sha256_update (sha256_update (sha256_update
      (sha256_update (sha256_update (sha256_update (sha256_update
        (sha256_update sha256_init (secret.take 32)) (tempkey.take 32))
        (e.od.take 4)) (List.replicate 8 0)) ((e.od.drop 4).take 3)) [0xEE])
        ((e.od.drop 7).take 4)) [0x01, 0x23]) ((e.od.drop 11).take 2)
    let req := copyright_msg.take 32 ++ sha256_final H ctx ++ e.od.take 13
    let t2 := pn.1 ++ [⟨seopcode_t.OP_CheckMac, 0x01, keynum, req⟩]
    match e.cmRead1 with
    | none => (t2, -2)
    | some rc => if rc ≠ 0 then (t2, -2) else (t2, 0)

/-- Modelled from the spec: `KEYNUM_pairing` comes from `se-config.h`, which
is not among the sources; the code's comments place the pairing secret in
key slot 1 ("First 32 byte value is in key slot 1 (pairing secret)").  No
claim depends on the value. -/
def KEYNUM_pairing : Nat := 1

/-- `se_pair_unlock()`: up to 3 `se_checkmac` attempts against the pairing
slot and secret, returning 0 on the first success and -1 if all fail. -/
def se_pair_unlock (H : List Nat → List Nat) (pairing_secret : List Nat)
    (e1 e2 e3 : CheckmacEnv) : List Command × Int :=
  let r1 := se_checkmac H KEYNUM_pairing pairing_secret e1
  if r1.2 = 0 then (r1.1, 0)
  else
    let r2 := se_checkmac H KEYNUM_pairing pairing_secret e2
    if r2.2 = 0 then (r1.1 ++ r2.1, 0)
    else
      let r3 := se_checkmac H KEYNUM_pairing pairing_secret e3
      if r3.2 = 0 then (r1.1 ++ r2.1 ++ r3.1, 0)
      else (r1.1 ++ r2.1 ++ r3.1, -1)

/-- Environment of one `se_encrypted_write32` call: the three pair-unlock
attempts, the GenDig-slot environment, and the `se_read1` outcome after the
Write command. -/
structure EW32Env where
  pu1 : CheckmacEnv
  pu2 : CheckmacEnv
  pu3 : CheckmacEnv
  gd_numin : List Nat
  gd_nonceRead : Option (List Nat)
  gd_read1 : Option Nat
  wr_read1 : Option Nat

/-- `se_encrypted_write32(data_slot, blk, write_kn, write_key, data)`:
pair-unlock, derive the one-time GenDig digest over the write key, XOR the
32 plaintext bytes with the digest, append the authenticating tag
`SHA256(digest || {OP_Write, p1, p2_lsb, p2_msb, 0xEE, 0x01, 0x23} ||
25 zeros || plaintext)`, send the Write command with the 64-byte body, and
require a 0 response byte. -/
def se_encrypted_write32 (H : List Nat → List Nat) (pairing_secret : List Nat)
    (data_slot blk write_kn : Nat) (write_key data : List Nat) (e : EW32Env) :
    List Command × Int :=
  let pu := se_pair_unlock H pairing_secret e.pu1 e.pu2 e.pu3
  if pu.2 < 0 then (pu.1, -1)
  else
    let gd := se_gendig_slot H write_kn write_key e.gd_numin e.gd_nonceRead e.gd_read1
    match gd.2 with
    | none => (pu.1 ++ gd.1, -1)
    | some digest =>
      let cipher := (List.range 32).map (fun i => data.getD i 0 ^^^ digest.getD i 0)
      let p1 := 0x80 ||| 2
      let p2_lsb := (data_slot <<< 3) % 256
      let p2_msb := blk % 256
      let args := [opcodeVal .OP_Write, p1, p2_lsb, p2_msb, 0xEE, 0x01, 0x23]
      let ctx := sha256_update (sha256_update (sha256_update
        (sha256_update sha256_init (digest.take 32)) args)
        (List.replicate 25 0)) (data.take 32)
      let body := cipher ++ sha256_final H ctx
      let t3 := pu.1 ++ gd.1 ++
        [⟨seopcode_t.OP_Write, p1, ((p2_msb <<< 8) ||| p2_lsb) % 65536, body⟩]
      let res : Int :=
        match e.wr_read1 with
        | none => -1
        | some rc => if rc ≠ 0 then -1 else 0
      (t3, res)

/-- The 32-byte block `se_encrypted_write` passes to `se_encrypted_write32`:
`here = MIN(32, len)` bytes copied from `data + 32*blk` into a zeroed
32-byte buffer. -/
def block_plain (data : List Nat) (blk here : Nat) : List Nat :=
  (data.drop (32 * blk)).take here ++ List.replicate (32 - here) 0

/-- The block loop of `se_encrypted_write`: `todo` counts the remaining
iterations of `for (blk=0; blk<3 && len>0; blk++, len-=32)` (the top-level
call starts with `todo = 3`, `blk = 0`, so `todo > 0` is `blk < 3`), and
`envs blk` is the environment of block `blk`'s `se_encrypted_write32`. -/
def se_ew_go (H : List Nat → List Nat) (pairing_secret : List Nat)
    (data_slot write_kn : Nat) (write_key data : List Nat) (envs : Nat → EW32Env) :
    Nat → Nat → Nat → List Command × Int
  | 0, _, _ => ([], 0)
  | todo + 1, blk, len =>
    if 0 < len then
      let here := min 32 len
      let tmp := block_plain data blk here
      let r := se_encrypted_write32 H pairing_secret data_slot blk write_kn write_key
        tmp (envs blk)
      if r.2 < 0 then (r.1, -1)
      else
        let rest := se_ew_go H pairing_secret data_slot write_kn write_key data envs
          todo (blk + 1) (len - 32)
        (r.1 ++ rest.1, rest.2)
    else ([], 0)

/-- `se_encrypted_write(data_slot, write_kn, write_key, data, len)`: split
`data` into up to 3 zero-padded 32-byte blocks and write them in order,
aborting on the first failed block. -/
def se_encrypted_write (H : List Nat → List Nat) (pairing_secret : List Nat)
    (data_slot write_kn : Nat) (write_key data : List Nat) (len : Nat)
    (envs : Nat → EW32Env) : List Command × Int :=
  se_ew_go H pairing_secret data_slot write_kn write_key data envs 3 0 len

/-- C2: `se_pick_nonce` computes the returned tempkey as
`SHA256(chip_rng_output[32] || host_entropy[20] || {0x16, 0, 0})` for every
20-byte host entropy input and 32-byte chip RNG output; being the value of
this function of the two inputs, the derivation is deterministic. -/
theorem se_pick_nonce_spec (H : List Nat → List Nat) (num_in randout : List Nat)
    (h1 : num_in.length = 20) (h2 : randout.length = 32) :
    (se_pick_nonce H num_in (some randout)).2 =
      some (H (randout ++ num_in ++ [0x16, 0, 0])) := by
  have e1 : num_in.take 20 = num_in := by rw [← h1]; exact List.take_length _
  have e2 : randout.take 32 = randout := by rw [← h2]; exact List.take_length _
  simp [se_pick_nonce, sha256_update, sha256_init, sha256_final, e1, e2]

/-- Witness for C2 at concrete 20- and 32-byte inputs and `H = id`. -/
theorem se_pick_nonce_spec_witness :
    (se_pick_nonce id (List.replicate 20 1) (some (List.replicate 32 2))).2 =
      some (List.replicate 32 2 ++ List.replicate 20 1 ++ [0x16, 0, 0]) :=
  se_pick_nonce_spec id (List.replicate 20 1) (List.replicate 32 2) (by simp) (by simp)

/-- C3: when the nonce-exchange read succeeds with `randout` and the GenDig
`se_read1` delivers the success byte 0, `se_gendig_slot` returns
`SHA256(slot_contents || {OP_GenDig, 2, slot_num, 0, 0xEE, 0x01, 0x23} ||
25 zeros || tempkey)` where `tempkey` is the value of the preceding fresh
nonce exchange. -/
theorem se_gendig_slot_spec (H : List Nat → List Nat) (slot_num : Nat)
    (slot_contents num_in randout : List Nat)
    (hH : ∀ l, (H l).length = 32) (hsn : slot_num < 256)
    (h1 : slot_contents.length = 32) (h2 : num_in.length = 20)
    (h3 : randout.length = 32) :
    (se_gendig_slot H slot_num slot_contents num_in (some randout) (some 0)).2 =
      some (H (slot_contents ++
        [opcodeVal .OP_GenDig, 2, slot_num, 0, 0xEE, 0x01, 0x23] ++
        List.replicate 25 0 ++ H (randout ++ num_in ++ [0x16, 0, 0]))) := by
  have e1 : slot_contents.take 32 = slot_contents := by rw [← h1]; exact List.take_length _
  have e2 : num_in.take 20 = num_in := by rw [← h2]; exact List.take_length _
  have e3 : randout.take 32 = randout := by rw [← h3]; exact List.take_length _
  have e4 : ∀ l, (H l).take 32 = H l := fun l => by rw [← hH l]; exact List.take_length _
  have e5 : slot_num % 256 = slot_num := Nat.mod_eq_of_lt hsn
  simp [se_gendig_slot, se_pick_nonce, sha256_update, sha256_init, sha256_final,
    e1, e2, e3, e4, e5]

/-- Witness for C3 at slot 5 with concrete 32/20/32-byte inputs and a
constant 32-byte hash. -/
theorem se_gendig_slot_spec_witness :
    (se_gendig_slot (fun _ => List.replicate 32 0) 5 (List.replicate 32 3)
        (List.replicate 20 1) (some (List.replicate 32 2)) (some 0)).2 =
      some (List.replicate 32 0) :=
  se_gendig_slot_spec (fun _ => List.replicate 32 0) 5 (List.replicate 32 3)
    (List.replicate 20 1) (List.replicate 32 2) (fun l => by simp) (by omega)
    (by simp) (by simp) (by simp)

/-- C1 counterexample: with a successful nonce exchange but a transport
failure reading the CheckMac response (`se_read1` returns -1, modelled as
`cmRead1 = none`), `se_checkmac` returns -2, not the transport-failure code
-1 the claim requires for a failure to read the CheckMac response. -/
theorem se_checkmac_read_failure_counterexample :
    (se_checkmac (fun _ => List.replicate 32 0) 1 (List.replicate 32 0)
        ⟨List.replicate 32 0, List.replicate 20 0, some (List.replicate 32 0), none⟩).2
      = -2 ∧
    (se_checkmac (fun _ => List.replicate 32 0) 1 (List.replicate 32 0)
        ⟨List.replicate 32 0, List.replicate 20 0, some (List.replicate 32 0), none⟩).2
      ≠ -1 :=
  ⟨rfl, by decide⟩

/-- C1 (amended): `se_checkmac` returns -1 exactly when the nonce-exchange
read fails, 0 exactly when the nonce exchange succeeds and the CheckMac
response byte is 0, and -2 exactly when the nonce exchange succeeds and the
CheckMac response is anything else — a nonzero chip byte (such as the
authentication-failure status) or a transport failure reading the CheckMac
response, both of which map to -2. -/
theorem se_checkmac_return_codes (H : List Nat → List Nat) (keynum : Nat)
    (secret : List Nat) (e : CheckmacEnv) :
    ((se_checkmac H keynum secret e).2 = -1 ↔ e.nonceRead = none) ∧
    ((se_checkmac H keynum secret e).2 = 0 ↔
      e.nonceRead ≠ none ∧ e.cmRead1 = some 0) ∧
    ((se_checkmac H keynum secret e).2 = -2 ↔
      e.nonceRead ≠ none ∧ e.cmRead1 ≠ some 0) := by
  obtain ⟨od, numin, nr, cm⟩ := e
  cases nr with
  | none => simp [se_checkmac, se_pick_nonce]
  | some r =>
    cases cm with
    | none => simp [se_checkmac, se_pick_nonce]
    | some rc =>
      by_cases hrc : rc = 0
      · subst hrc
        simp [se_checkmac, se_pick_nonce]
      · simp [se_checkmac, se_pick_nonce, hrc]

theorem range_map_getD_xor : ∀ (n : Nat) (xs ys : List Nat),
    xs.length = n → ys.length = n →
    (List.range n).map (fun i => xs.getD i 0 ^^^ ys.getD i 0) =
      List.zipWith Nat.xor xs ys := by
  intro n
  induction n with
  | zero =>
    intro xs ys hx hy
    rw [List.eq_nil_of_length_eq_zero hx, List.eq_nil_of_length_eq_zero hy]
    simp
  | succ m ih =>
    intro xs ys hx hy
    obtain ⟨a, xs1, rfl⟩ : ∃ a xs1, xs = a :: xs1 := by
      cases xs with
      | nil => simp at hx
      | cons a xs1 => exact ⟨a, xs1, rfl⟩
    obtain ⟨b, ys1, rfl⟩ : ∃ b ys1, ys = b :: ys1 := by
      cases ys with
      | nil => simp at hy
      | cons b ys1 => exact ⟨b, ys1, rfl⟩
    rw [List.range_succ_eq_map]
    simp only [List.map_cons, List.map_map, List.zipWith_cons_cons,
      List.getD_cons_zero, Function.comp, List.getD_cons_succ, List.cons.injEq]
    exact ⟨rfl, ih xs1 ys1 (by simpa using hx) (by simpa using hy)⟩

/-- C4: the Write command that `se_encrypted_write32` issues (after a
successful pair-unlock and GenDig producing digest `d`) carries as its body
the byte-wise XOR of the 32-byte plaintext with `d`, followed by the tag
`SHA256(d || {OP_Write, p1, p2_lsb, p2_msb, 0xEE, 0x01, 0x23} || 25 zeros ||
plaintext)` — the tag authenticates the plaintext, not the ciphertext,
bound to that digest, slot and block. -/
theorem se_encrypted_write32_spec (H : List Nat → List Nat) (ps : List Nat)
    (data_slot blk write_kn : Nat) (write_key data : List Nat) (e : EW32Env)
    (d : List Nat)
    (hpu : (se_pair_unlock H ps e.pu1 e.pu2 e.pu3).2 = 0)
    (hgd : (se_gendig_slot H write_kn write_key e.gd_numin e.gd_nonceRead
      e.gd_read1).2 = some d)
    (hd : d.length = 32) (hdata : data.length = 32) :
    ∃ t, (se_encrypted_write32 H ps data_slot blk write_kn write_key data e).1 =
      t ++ [⟨seopcode_t.OP_Write, 0x80 ||| 2,
        (((blk % 256) <<< 8) ||| ((data_slot <<< 3) % 256)) % 65536,
        List.zipWith Nat.xor data d ++
          H (d ++ [opcodeVal .OP_Write, 0x80 ||| 2, (data_slot <<< 3) % 256,
            blk % 256, 0xEE, 0x01, 0x23] ++ List.replicate 25 0 ++ data)⟩] := by
  refine ⟨(se_pair_unlock H ps e.pu1 e.pu2 e.pu3).1 ++
    (se_gendig_slot H write_kn write_key e.gd_numin e.gd_nonceRead e.gd_read1).1, ?_⟩
  have hxor := range_map_getD_xor 32 data d hdata hd
  simp only [List.getD_eq_getElem?_getD] at hxor
  have hdt : d.take 32 = d := by rw [← hd]; exact List.take_length _
  have hdat : data.take 32 = data := by rw [← hdata]; exact List.take_length _
  simp [se_encrypted_write32, hpu, hgd, hxor, hdt, hdat,
    sha256_update, sha256_init, sha256_final, List.append_assoc]

/-- Environment used by the C4 witness: every read succeeds and every
single-byte response is the success byte 0. -/
def ew32WitnessEnv : EW32Env :=
  ⟨⟨List.replicate 32 0, List.replicate 20 0, some (List.replicate 32 0), some 0⟩,
   ⟨List.replicate 32 0, List.replicate 20 0, some (List.replicate 32 0), some 0⟩,
   ⟨List.replicate 32 0, List.replicate 20 0, some (List.replicate 32 0), some 0⟩,
   List.replicate 20 0, some (List.replicate 32 0), some 0, some 0⟩

/-- Witness for C4 with a constant 32-byte hash, slot 1, block 0, and
concrete key and plaintext. -/
theorem se_encrypted_write32_spec_witness :
    ∃ t, (se_encrypted_write32 (fun _ => List.replicate 32 1) (List.replicate 32 0)
        1 0 2 (List.replicate 32 4) (List.replicate 32 5) ew32WitnessEnv).1 =
      t ++ [⟨seopcode_t.OP_Write, 130, 8,
        List.zipWith Nat.xor (List.replicate 32 5) (List.replicate 32 1) ++
          List.replicate 32 1⟩] :=
  se_encrypted_write32_spec (fun _ => List.replicate 32 1) (List.replicate 32 0)
    1 0 2 (List.replicate 32 4) (List.replicate 32 5) ew32WitnessEnv
    (List.replicate 32 1) rfl rfl (by simp) (by simp)

theorem se_encrypted_write32_snd (H : List Nat → List Nat) (ps : List Nat)
    (ds bk kn : Nat) (wk dt : List Nat) (e : EW32Env) :
    (se_encrypted_write32 H ps ds bk kn wk dt e).2 =
      if (se_pair_unlock H ps e.pu1 e.pu2 e.pu3).2 < 0 then -1
      else
        match (se_gendig_slot H kn wk e.gd_numin e.gd_nonceRead e.gd_read1).2 with
        | none => -1
        | some _ =>
          match e.wr_read1 with
          | none => -1
          | some rc => if rc ≠ 0 then -1 else 0 := by
  simp only [se_encrypted_write32]
  split
  · rfl
  · split <;> rfl

/-- C9: with `len = 1` (as `se_read1` calls it), the terminal chip-error
branch of `se_read` is unreachable, because the 4-byte error frame's
declared length 4 equals `len + 3` and so passes the length check; a
CRC-valid 4-byte error frame is returned as a success whose single payload
byte is the chip's error code, which `se_read1` hands to its callers — and
`se_gendig_slot`, `se_checkmac` and `se_encrypted_write32` succeed only
when that delivered byte equals 0. -/
theorem se_read1_error_code_delivery (op : seopcode_t) (ec : Nat)
    (env : Nat → List Nat) (c : Counters) :
    (∀ (resp : List Nat) (wd : Bool), classify op 1 resp ≠ .terminal wd) ∧
    (env 0 = [4, ec, (se_crc16_chain [4, ec] (0, 0)).1,
        (se_crc16_chain [4, ec] (0, 0)).2] →
      se_read op 1 env c = (some [ec], c) ∧ se_read1 op env c = ((ec : Int), c)) ∧
    (∀ (H : List Nat → List Nat) (slot : Nat) (sc n r : List Nat) (g : Nat),
      (se_gendig_slot H slot sc n (some r) (some g)).2 ≠ none → g = 0) ∧
    (∀ (H : List Nat → List Nat) (k : Nat) (s : List Nat) (e : CheckmacEnv),
      (se_checkmac H k s e).2 = 0 → e.cmRead1 = some 0) ∧
    (∀ (H : List Nat → List Nat) (ps : List Nat) (ds bk kn : Nat)
      (wk dt : List Nat) (e : EW32Env),
      (se_encrypted_write32 H ps ds bk kn wk dt e).2 = 0 → e.wr_read1 = some 0) := by
  refine ⟨?_, ?_, ?_, ?_, ?_⟩
  · intro resp wd
    unfold classify
    by_cases h1 : resp.length < 4
    · rw [if_pos h1]
      by_cases h2 : resp.length = 0
      · rw [if_pos h2]; simp
      · rw [if_neg h2]; simp
    · rw [if_neg h1]
      by_cases h3 : op = .OP_Info
      · rw [if_pos h3]; simp
      · rw [if_neg h3]
        by_cases h5 : (resp.take (1 + 3)).getD 0 0 ≠ 1 + 3
        · rw [if_pos h5, if_neg (show ¬(resp.take (1 + 3)).getD 0 0 = 4 from by omega)]
          simp
        · rw [if_neg h5]
          by_cases h7 : check_crc (resp.take (1 + 3)) resp.length = true
          · rw [if_pos h7]; simp
          · rw [if_neg h7]; simp
  · intro henv
    have hcl : classify op 1 (env 0) = .success [ec] := by
      rw [henv]
      by_cases hop : op = .OP_Info
      · simp [classify, hop, List.take, List.drop]
      · simp [classify, check_crc, hop, List.take, List.drop]
    have hrd : se_read op 1 env c = (some [ec], c) := by
      rw [se_read, show (101 : Nat) = 100 + 1 from rfl, se_read_go_succ_success hcl]
    refine ⟨hrd, ?_⟩
    rw [se_read1, hrd]
    simp
  · intro H slot sc n r g hne
    by_cases hg : g = 0
    · exact hg
    · exact absurd (by simp [se_gendig_slot, se_pick_nonce, hg]) hne
  · intro H k s e h
    obtain ⟨od, numin, nr, cm⟩ := e
    cases nr with
    | none => simp [se_checkmac, se_pick_nonce] at h
    | some r =>
      cases cm with
      | none => simp [se_checkmac, se_pick_nonce] at h
      | some rc =>
        by_cases hrc : rc = 0
        · subst hrc; rfl
        · simp [se_checkmac, se_pick_nonce, hrc] at h
  · intro H ps ds bk kn wk dt e h
    rw [se_encrypted_write32_snd] at h
    split at h
    · simp at h
    · split at h
      · simp at h
      · cases hw : e.wr_read1 with
        | none => rw [hw] at h; simp at h
        | some rc =>
          rw [hw] at h
          by_cases hrc : rc = 0
          · rw [hrc]
          · simp [hrc] at h

/-- Witness for C9: the CRC-valid error frame `[4, 5, 195, 67]` (CRC of
`[4, 5]` is `(195, 67)`) is delivered as the payload byte 5, and a CheckMac
exchange succeeds only with a 0 response byte. -/
theorem se_read1_error_code_delivery_witness :
    (se_read .OP_Read 1 (fun _ => [4, 5, 195, 67]) ⟨0, 0, 0, 0, 0, 0, 0, 0⟩ =
        (some [5], ⟨0, 0, 0, 0, 0, 0, 0, 0⟩) ∧
      se_read1 .OP_Read (fun _ => [4, 5, 195, 67]) ⟨0, 0, 0, 0, 0, 0, 0, 0⟩ =
        (5, ⟨0, 0, 0, 0, 0, 0, 0, 0⟩)) ∧
    (⟨List.replicate 32 0, List.replicate 20 0, some (List.replicate 32 0),
        some 0⟩ : CheckmacEnv).cmRead1 = some 0 :=
  ⟨(se_read1_error_code_delivery .OP_Read 5 (fun _ => [4, 5, 195, 67])
      ⟨0, 0, 0, 0, 0, 0, 0, 0⟩).2.1 (by decide),
   (se_read1_error_code_delivery .OP_Read 5 (fun _ => [4, 5, 195, 67])
      ⟨0, 0, 0, 0, 0, 0, 0, 0⟩).2.2.2.1 (fun _ => List.replicate 32 0) 1
      (List.replicate 32 0)
      ⟨List.replicate 32 0, List.replicate 20 0, some (List.replicate 32 0), some 0⟩
      rfl⟩

theorem se_ew_go_len_zero (H : List Nat → List Nat) (ps : List Nat) (ds kn : Nat)
    (wk data : List Nat) (envs : Nat → EW32Env) :
    ∀ todo blk, se_ew_go H ps ds kn wk data envs todo blk 0 = ([], 0) := by
  intro todo blk
  cases todo <;> simp [se_ew_go]

theorem se_ew_go_full (H : List Nat → List Nat) (ps : List Nat) (ds kn : Nat)
    (wk data : List Nat) (envs : Nat → EW32Env) :
    ∀ todo blk len len', 32 * todo ≤ len → 32 * todo ≤ len' →
      se_ew_go H ps ds kn wk data envs todo blk len =
        se_ew_go H ps ds kn wk data envs todo blk len' := by
  intro todo
  induction todo with
  | zero =>
    intro blk len len' _ _
    simp [se_ew_go]
  | succ n ih =>
    intro blk len len' h h'
    have h0 : 0 < len := by omega
    have h0' : 0 < len' := by omega
    have hm : min 32 len = 32 := by omega
    have hm' : min 32 len' = 32 := by omega
    simp only [se_ew_go, if_pos h0, if_pos h0', hm, hm']
    rw [ih (blk + 1) (len - 32) (len' - 32) (by omega) (by omega)]

theorem se_ew_go_take (H : List Nat → List Nat) (ps : List Nat) (ds kn : Nat)
    (wk : List Nat) (envs : Nat → EW32Env) :
    ∀ (todo blk len : Nat) (data : List Nat),
      se_ew_go H ps ds kn wk data envs todo blk len =
        se_ew_go H ps ds kn wk (data.take (32 * blk + len)) envs todo blk len := by
  intro todo
  induction todo with
  | zero =>
    intro blk len data
    simp [se_ew_go]
  | succ n ih =>
    intro blk len data
    by_cases h0 : 0 < len
    · have htmp : block_plain (data.take (32 * blk + len)) blk (min 32 len) =
          block_plain data blk (min 32 len) := by
        unfold block_plain
        rw [List.drop_take, show 32 * blk + len - 32 * blk = len from by omega,
          List.take_take, show min (min 32 len) len = min 32 len from by omega]
      have hrest : se_ew_go H ps ds kn wk data envs n (blk + 1) (len - 32) =
          se_ew_go H ps ds kn wk (data.take (32 * blk + len)) envs n (blk + 1) (len - 32) := by
        by_cases h32 : 32 ≤ len
        · rw [ih (blk + 1) (len - 32) data,
            show 32 * (blk + 1) + (len - 32) = 32 * blk + len from by omega,
            ih (blk + 1) (len - 32) (data.take (32 * blk + len)),
            show 32 * (blk + 1) + (len - 32) = 32 * blk + len from by omega,
            List.take_take, Nat.min_self]
        · have hz : len - 32 = 0 := by omega
          rw [hz, se_ew_go_len_zero, se_ew_go_len_zero]
      simp only [se_ew_go, if_pos h0]
      rw [htmp, ← hrest]
    · have hz : len = 0 := by omega
      rw [hz, se_ew_go_len_zero, se_ew_go_len_zero]

theorem se_ew_go_res (H : List Nat → List Nat) (ps : List Nat) (ds kn : Nat)
    (wk data : List Nat) (envs : Nat → EW32Env) :
    ∀ todo blk len,
      (se_ew_go H ps ds kn wk data envs todo blk len).2 = 0 ∨
      (se_ew_go H ps ds kn wk data envs todo blk len).2 = -1 := by
  intro todo
  induction todo with
  | zero =>
    intro blk len
    left
    rfl
  | succ n ih =>
    intro blk len
    by_cases h0 : 0 < len
    · simp only [se_ew_go, if_pos h0]
      split
      · right
        rfl
      · simpa using ih (blk + 1) (len - 32)
    · simp only [se_ew_go, if_neg h0]
      left
      trivial

/-- C10: `se_encrypted_write` copies each block into a zeroed 32-byte buffer
(`block_plain` has length 32 and is zero beyond the `here` bytes taken from
the caller's data), reads nothing beyond the first `len` bytes of the
caller's buffer (the result is unchanged under `data.take len`), processes
at most 3 blocks (for `len ≥ 96` the call behaves exactly as for `len = 96`,
so bytes past 96 are never written), and returns only 0 or -1 — a
truncated `len > 96` call that succeeds still returns 0 with no truncation
report. -/
theorem se_encrypted_write_blocks :
    (∀ (H : List Nat → List Nat) (ps : List Nat) (ds kn : Nat) (wk data : List Nat)
      (len : Nat) (envs : Nat → EW32Env), 96 ≤ len →
      se_encrypted_write H ps ds kn wk data len envs =
        se_encrypted_write H ps ds kn wk data 96 envs) ∧
    (∀ (H : List Nat → List Nat) (ps : List Nat) (ds kn : Nat) (wk data : List Nat)
      (len : Nat) (envs : Nat → EW32Env),
      se_encrypted_write H ps ds kn wk data len envs =
        se_encrypted_write H ps ds kn wk (data.take len) len envs) ∧
    (∀ (data : List Nat) (blk here : Nat), here ≤ 32 → 32 * blk + here ≤ data.length →
      (block_plain data blk here).length = 32 ∧
      (block_plain data blk here).drop here = List.replicate (32 - here) 0) ∧
    (∀ (H : List Nat → List Nat) (ps : List Nat) (ds kn : Nat) (wk data : List Nat)
      (len : Nat) (envs : Nat → EW32Env),
      (se_encrypted_write H ps ds kn wk data len envs).2 = 0 ∨
      (se_encrypted_write H ps ds kn wk data len envs).2 = -1) := by
  refine ⟨?_, ?_, ?_, ?_⟩
  · intro H ps ds kn wk data len envs hlen
    exact se_ew_go_full H ps ds kn wk data envs 3 0 len 96 (by omega) (by omega)
  · intro H ps ds kn wk data len envs
    have h := se_ew_go_take H ps ds kn wk envs 3 0 len data
    rwa [show 32 * 0 + len = len from by omega] at h
  · intro data blk here h32 hlen
    have hlt : ((data.drop (32 * blk)).take here).length = here := by
      rw [List.length_take, List.length_drop]
      omega
    constructor
    · unfold block_plain
      rw [List.length_append, hlt, List.length_replicate]
      omega
    · unfold block_plain
      rw [List.drop_left' hlt]
  · intro H ps ds kn wk data len envs
    exact se_ew_go_res H ps ds kn wk data envs 3 0 len

/-- Environment used by the C10 witness (every transport step fails, which
the truncation equality does not depend on). -/
def ewFailEnv : EW32Env :=
  ⟨⟨[], [], none, none⟩, ⟨[], [], none, none⟩, ⟨[], [], none, none⟩, [], none, none, none⟩

/-- Witness for C10: a 100-byte write behaves exactly as the 96-byte write,
and the 4-byte final block is zero-padded to 32 bytes. -/
theorem se_encrypted_write_blocks_witness :
    se_encrypted_write (fun _ => []) [] 0 0 [] (List.range 100) 100 (fun _ => ewFailEnv) =
      se_encrypted_write (fun _ => []) [] 0 0 [] (List.range 100) 96 (fun _ => ewFailEnv) ∧
    ((block_plain (List.range 100) 0 4).length = 32 ∧
      (block_plain (List.range 100) 0 4).drop 4 = List.replicate (32 - 4) 0) :=
  ⟨se_encrypted_write_blocks.1 (fun _ => []) [] 0 0 [] (List.range 100) 100
      (fun _ => ewFailEnv) (by omega),
   se_encrypted_write_blocks.2.2.1 (List.range 100) 0 4 (by omega) (by simp)⟩
